/-
Verification of the windowed FPS tracker and performance-monitor orchestrator
(`nitroperf::FPSTracker`, `HybridPerfMonitor`).

Modelling conventions:
* C++ `double` values (timestamps, config fields) are modelled as exact
  rationals `ℚ`; `std::round` (half away from zero) is `croundQ`, and a
  `static_cast<int>` of a double is `truncToInt` (truncation toward zero).
* `std::vector<int>` is `List ℤ`; indexed writes are `List.set`, indexed
  reads are `List.getD` with default 0.
* The mutex-guarded mutable state of a tracker / the monitor is a structure,
  and each member function is a pure state-transformer taken line by line
  from the source.
-/
import Mathlib

set_option maxHeartbeats 1000000

namespace NitroPerf

/-- `std::round` on an exact rational: round half away from zero. -/
def croundQ (x : ℚ) : ℤ := if 0 ≤ x then round x else -round (-x)

/-- `static_cast<int>` (or `static_cast<size_t>`, composed with `Int.toNat`)
of a C++ `double`, modelled exactly: truncation toward zero, i.e.
T-division of the numerator by the denominator (so `-1.5` casts to `-1`,
as in C++). -/
def truncToInt (q : ℚ) : ℤ := Int.tdiv q.num (q.den : ℤ)

/-- The last `n` elements of a list, in order (all of `l` when
`l.length ≤ n`). Used to state the FIFO ring-buffer property. -/
def lastN (n : ℕ) (l : List ℤ) : List ℤ := l.drop (l.length - n)

/-- The mutable state of `nitroperf::FPSTracker` (FPSTracker.hpp lines 52-69):
ring buffer of samples, the open window, and aggregate statistics.
`minFps` starts at `INT32_MAX = 2147483647`. -/
structure FPSTracker where
  maxSamples : ℕ
  samples : List ℤ
  writeIndex : ℕ
  sampleCount : ℕ
  windowStart : ℚ
  frameCount : ℤ
  hasFirstTick : Bool
  currentFps : ℤ
  minFps : ℤ
  maxFps : ℤ
  droppedFrames : ℤ
  stutterCount : ℤ
  targetFps : ℤ
deriving DecidableEq, Repr

/-- `FPSTracker::FPSTracker(size_t maxSamples)`: zero-filled buffer of
`maxSamples` slots, all counters at their initial values. -/
def FPSTracker.init (maxSamples : ℕ) : FPSTracker where
  maxSamples := maxSamples
  samples := List.replicate maxSamples 0
  writeIndex := 0
  sampleCount := 0
  windowStart := 0
  frameCount := 0
  hasFirstTick := false
  currentFps := 0
  minFps := 2147483647
  maxFps := 0
  droppedFrames := 0
  stutterCount := 0
  targetFps := 60

/-- `FPSTracker::recordSample(int fps)` (FPSTracker.cpp lines 34-56):
write into the ring buffer, advance the write index, bump the sample count
up to capacity, publish `currentFps`, update min/max, and account dropped
frames (`max(0, targetFps - fps)`) and stutters (`dropped >= 4`). -/
def FPSTracker.recordSample (fps : ℤ) (s : FPSTracker) : FPSTracker :=
  { s with
    samples := s.samples.set s.writeIndex fps
    writeIndex := (s.writeIndex + 1) % s.maxSamples
    sampleCount := if s.sampleCount < s.maxSamples then s.sampleCount + 1 else s.sampleCount
    currentFps := fps
    minFps := if fps < s.minFps then fps else s.minFps
    maxFps := if s.maxFps < fps then fps else s.maxFps
    droppedFrames := s.droppedFrames + max 0 (s.targetFps - fps)
    stutterCount :=
      if 4 ≤ max 0 (s.targetFps - fps) then s.stutterCount + 1 else s.stutterCount }

/-- `FPSTracker::onFrameTick(double timestampSeconds)` (FPSTracker.cpp lines
10-32): the first tick opens a window and counts one frame; later ticks
increment the frame count, and once `elapsed >= 1.0` the sample
`round(frameCount / elapsed)` is recorded and a new window opens at `t`
with a zero frame count. -/
def FPSTracker.onFrameTick (t : ℚ) (s : FPSTracker) : FPSTracker :=
  if s.hasFirstTick = false then
    { s with windowStart := t, frameCount := 1, hasFirstTick := true }
  else
    let s1 : FPSTracker := { s with frameCount := s.frameCount + 1 }
    let elapsed := t - s1.windowStart
    if 1 ≤ elapsed then
      let fps := croundQ ((s1.frameCount : ℚ) / elapsed)
      let s2 := s1.recordSample fps
      { s2 with windowStart := t, frameCount := 0 }
    else
      s1

/-- `FPSTracker::getCurrentFps()`. -/
def FPSTracker.getCurrentFps (s : FPSTracker) : ℤ := s.currentFps

/-- `FPSTracker::getSamples()` (FPSTracker.cpp lines 62-82): before the
buffer wraps, read indices `0 ..< sampleCount`; once wrapped, read
`maxSamples` slots starting at `writeIndex` (the oldest). -/
def FPSTracker.getSamples (s : FPSTracker) : List ℤ :=
  if s.sampleCount < s.maxSamples then
    (List.range s.sampleCount).map (fun i => s.samples.getD i 0)
  else
    (List.range s.maxSamples).map (fun i => s.samples.getD ((s.writeIndex + i) % s.maxSamples) 0)

/-- `FPSTracker::getMinFps()`: `sampleCount > 0 ? minFps : 0`. -/
def FPSTracker.getMinFps (s : FPSTracker) : ℤ := if 0 < s.sampleCount then s.minFps else 0

/-- `FPSTracker::getMaxFps()`. -/
def FPSTracker.getMaxFps (s : FPSTracker) : ℤ := s.maxFps

/-- `FPSTracker::getDroppedFrames()`. -/
def FPSTracker.getDroppedFrames (s : FPSTracker) : ℤ := s.droppedFrames

/-- `FPSTracker::getStutterCount()`. -/
def FPSTracker.getStutterCount (s : FPSTracker) : ℤ := s.stutterCount

/-- `FPSTracker::setTargetFps(int target)`. -/
def FPSTracker.setTargetFps (target : ℤ) (s : FPSTracker) : FPSTracker :=
  { s with targetFps := target }

/-- `FPSTracker::reset()` (FPSTracker.cpp lines 109-122): zero-fill the
buffer (`std::fill`), reset indices, window, and every statistic;
`targetFps` is kept. -/
def FPSTracker.reset (s : FPSTracker) : FPSTracker :=
  { s with
    samples := s.samples.map (fun _ => 0)
    writeIndex := 0
    sampleCount := 0
    windowStart := 0
    frameCount := 0
    hasFirstTick := false
    currentFps := 0
    minFps := 2147483647
    maxFps := 0
    droppedFrames := 0
    stutterCount := 0 }

/-- The branch condition under which `onFrameTick` closes the window and
evaluates the division `frameCount / elapsed` (FPSTracker.cpp line 24). -/
def FPSTracker.closesWindow (s : FPSTracker) (t : ℚ) : Bool :=
  s.hasFirstTick && decide (1 ≤ t - s.windowStart)

/-- The sample emitted by `onFrameTick t` from state `s` (`none` when the
window does not close). -/
def FPSTracker.emittedFps (t : ℚ) (s : FPSTracker) : Option ℤ :=
  if s.hasFirstTick = false then none
  else if 1 ≤ t - s.windowStart then
    some (croundQ (((s.frameCount + 1 : ℤ) : ℚ) / (t - s.windowStart)))
  else none

/-- Deliver a whole tick sequence to a tracker. -/
def FPSTracker.runTicks (ts : List ℚ) (s : FPSTracker) : FPSTracker :=
  ts.foldl (fun a t => a.onFrameTick t) s

/-- The full chronological list of samples emitted while delivering `ts`
to `s`: the reference history the ring buffer is a suffix of. -/
def FPSTracker.histFrom (ts : List ℚ) (s : FPSTracker) : List ℤ :=
  match ts with
  | [] => []
  | t :: rest => (FPSTracker.emittedFps t s).toList ++ FPSTracker.histFrom rest (s.onFrameTick t)

/-- The `PerfConfig` record passed to `HybridPerfMonitor::configure`: three
`double` fields, modelled as exact rationals. -/
structure PerfConfig where
  updateIntervalMs : ℚ
  maxHistorySamples : ℚ
  targetFps : ℚ
deriving DecidableEq, Repr

/-- The mutable state of `HybridPerfMonitor` (core HybridPerfMonitor.hpp
lines 47-74): two trackers, lifecycle flags, the subscriber registry
(modelled by its key set, since callbacks are opaque), and the auxiliary
counters. `updateIntervalMs` starts at 500, `nextSubscriberId` at 1. -/
structure Monitor where
  uiFpsTracker : FPSTracker
  jsFpsTracker : FPSTracker
  isRunning : Bool
  updateIntervalMs : ℤ
  targetFps : ℤ
  subscribers : List ℤ
  nextSubscriberId : ℤ
  timerRunning : Bool
  jsHeapUsed : ℤ
  jsHeapTotal : ℤ
  longTaskCount : ℤ
  longTaskTotalMs : ℤ
  slowEventCount : ℤ
  maxEventDurationMs : ℚ
  renderCount : ℤ
  lastRenderDurationMs : ℚ
deriving DecidableEq, Repr

/-- `HybridPerfMonitor::HybridPerfMonitor()`: two fresh trackers of
capacity 60, everything else at its member initializer. -/
def Monitor.init : Monitor where
  uiFpsTracker := FPSTracker.init 60
  jsFpsTracker := FPSTracker.init 60
  isRunning := false
  updateIntervalMs := 500
  targetFps := 60
  subscribers := []
  nextSubscriberId := 1
  timerRunning := false
  jsHeapUsed := 0
  jsHeapTotal := 0
  longTaskCount := 0
  longTaskTotalMs := 0
  slowEventCount := 0
  maxEventDurationMs := 0
  renderCount := 0
  lastRenderDurationMs := 0

/-- `HybridPerfMonitor::configure(const PerfConfig&)` (core
HybridPerfMonitor.cpp lines 142-156): store the interval unconditionally;
if `maxHistorySamples > 0` replace both trackers with fresh ones of that
capacity; if `targetFps > 0` store it and propagate it to both trackers. -/
def Monitor.configure (cfg : PerfConfig) (m : Monitor) : Monitor :=
  let m1 : Monitor := { m with updateIntervalMs := truncToInt cfg.updateIntervalMs }
  let m2 : Monitor :=
    if 0 < cfg.maxHistorySamples then
      let cap := (truncToInt cfg.maxHistorySamples).toNat
      { m1 with uiFpsTracker := FPSTracker.init cap, jsFpsTracker := FPSTracker.init cap }
    else m1
  if 0 < cfg.targetFps then
    let t := truncToInt cfg.targetFps
    { m2 with
      targetFps := t
      uiFpsTracker := m2.uiFpsTracker.setTargetFps t
      jsFpsTracker := m2.jsFpsTracker.setTargetFps t }
  else m2

/-- `HybridPerfMonitor::reset()` (core HybridPerfMonitor.cpp lines
158-169): reset both trackers and zero every auxiliary counter; the
lifecycle flags, interval, target, and subscriber registry are untouched. -/
def Monitor.reset (m : Monitor) : Monitor :=
  { m with
    uiFpsTracker := m.uiFpsTracker.reset
    jsFpsTracker := m.jsFpsTracker.reset
    jsHeapUsed := 0
    jsHeapTotal := 0
    longTaskCount := 0
    longTaskTotalMs := 0
    slowEventCount := 0
    maxEventDurationMs := 0
    renderCount := 0
    lastRenderDurationMs := 0 }

/-- `HybridPerfMonitor::subscribe` (core HybridPerfMonitor.cpp lines
98-103): take the next id from the counter, post-incrementing it, and
insert the callback under that id; the id is returned. -/
def Monitor.subscribe (m : Monitor) : ℤ × Monitor :=
  let i := m.nextSubscriberId
  (i, { m with nextSubscriberId := i + 1, subscribers := i :: m.subscribers })

/-- `HybridPerfMonitor::unsubscribe(id)`: erase the id from the registry
(no-op when absent). -/
def Monitor.unsubscribe (i : ℤ) (m : Monitor) : Monitor :=
  { m with subscribers := m.subscribers.filter (fun j => j ≠ i) }

/-- The sequential state effect of `HybridPerfMonitor::stop()` (core
HybridPerfMonitor.cpp lines 36-47): an early return when `isRunning` was
already false, otherwise both flags are cleared (the platform
unregistration and the join have no effect on this state). -/
def Monitor.stop (m : Monitor) : Monitor :=
  if m.isRunning = false then m
  else { m with isRunning := false, timerRunning := false }

/-- A subscribe / unsubscribe call in a registry call sequence. -/
inductive SubOp where
  | sub : SubOp
  | unsub : ℤ → SubOp
deriving DecidableEq, Repr

/-- Run a sequence of registry calls, collecting the ids returned by the
subscribe calls in chronological order. -/
def runSubOps : List SubOp → Monitor → Monitor × List ℤ
  | [], m => (m, [])
  | SubOp.sub :: rest, m =>
    let p := m.subscribe
    let q := runSubOps rest p.2
    (q.1, p.1 :: q.2)
  | SubOp.unsub i :: rest, m => runSubOps rest (m.unsubscribe i)

/-- Number of subscribe calls in a call sequence. -/
def countSubs : List SubOp → ℕ
  | [] => 0
  | SubOp.sub :: rest => countSubs rest + 1
  | SubOp.unsub _ :: rest => countSubs rest

/-
Interleaving model for `stop()` versus the timer thread
(`HybridPerfMonitor::timerLoop`, core HybridPerfMonitor.cpp lines 180-189).
The timer thread runs `while (timerRunning) { sleep; if (timerRunning)
notify; }`; `stop()` exchanges `isRunning`, clears `timerRunning`, and
joins the thread. Each atomic action is one labelled step.
-/

/-- Program counter of the timer thread inside `timerLoop`. -/
inductive TimerPC where
  | atWhile : TimerPC
  | atSleep : TimerPC
  | atCheck : TimerPC
  | exited : TimerPC
deriving DecidableEq, Repr

/-- Program counter of the thread executing `stop()`. -/
inductive CallerPC where
  | beforeStop : CallerPC
  | afterExchange : CallerPC
  | joining : CallerPC
  | done : CallerPC
deriving DecidableEq, Repr

/-- Shared state of the two threads. -/
structure SysState where
  isRunning : Bool
  timerRunning : Bool
  timer : TimerPC
  caller : CallerPC
deriving DecidableEq, Repr

/-- Observable events: a subscriber notification, and `stop()` returning. -/
inductive Ev where
  | notify : Ev
  | stopReturned : Ev
deriving DecidableEq, Repr

/-- One atomic step of either thread. Timer steps follow `timerLoop`; the
caller steps follow `stop()`: the `isRunning` exchange (with its early
return), the `timerRunning` store, and the join, which is enabled only
once the timer thread has exited. -/
inductive SysStep : SysState → List Ev → SysState → Prop where
  | timerWhileTrue (s : SysState) :
      s.timer = TimerPC.atWhile → s.timerRunning = true →
      SysStep s [] { s with timer := TimerPC.atSleep }
  | timerWhileFalse (s : SysState) :
      s.timer = TimerPC.atWhile → s.timerRunning = false →
      SysStep s [] { s with timer := TimerPC.exited }
  | timerSleepDone (s : SysState) :
      s.timer = TimerPC.atSleep →
      SysStep s [] { s with timer := TimerPC.atCheck }
  | timerCheckTrue (s : SysState) :
      s.timer = TimerPC.atCheck → s.timerRunning = true →
      SysStep s [Ev.notify] { s with timer := TimerPC.atWhile }
  | timerCheckFalse (s : SysState) :
      s.timer = TimerPC.atCheck → s.timerRunning = false →
      SysStep s [] { s with timer := TimerPC.atWhile }
  | callerExchangeTrue (s : SysState) :
      s.caller = CallerPC.beforeStop → s.isRunning = true →
      SysStep s [] { s with isRunning := false, caller := CallerPC.afterExchange }
  | callerExchangeFalse (s : SysState) :
      s.caller = CallerPC.beforeStop → s.isRunning = false →
      SysStep s [Ev.stopReturned] { s with caller := CallerPC.done }
  | callerClearFlag (s : SysState) :
      s.caller = CallerPC.afterExchange →
      SysStep s [] { s with timerRunning := false, caller := CallerPC.joining }
  | callerJoin (s : SysState) :
      s.caller = CallerPC.joining → s.timer = TimerPC.exited →
      SysStep s [Ev.stopReturned] { s with caller := CallerPC.done }

/-- Reflexive-transitive closure of `SysStep`, accumulating the emitted
events in order. -/
inductive StepsTo : SysState → List Ev → SysState → Prop where
  | refl (s : SysState) : StepsTo s [] s
  | snoc (s t u : SysState) (evs es : List Ev) :
      StepsTo s evs t → SysStep t es u → StepsTo s (evs ++ es) u

/-- No `stopReturned` event is ever followed (strictly later) by a
`notify` event: every `notify` occurs before `stop()` has returned. -/
def NoNotifyAfterStop (evs : List Ev) : Prop :=
  ∀ pre post, evs = pre ++ Ev.notify :: post → Ev.stopReturned ∉ pre

/-! ### Branch lemmas for `onFrameTick` -/

/-- First tick after construction or reset: open a window at `t`, count one
frame, record nothing. -/
theorem onFrameTick_first (s : FPSTracker) (t : ℚ) (h : s.hasFirstTick = false) :
    s.onFrameTick t = { s with windowStart := t, frameCount := 1, hasFirstTick := true } := by
  simp [FPSTracker.onFrameTick, h]

/-- A tick inside the open window: only the frame count moves. -/
theorem onFrameTick_inside (s : FPSTracker) (t : ℚ) (h : s.hasFirstTick = true)
    (helapsed : ¬ (1 ≤ t - s.windowStart)) :
    s.onFrameTick t = { s with frameCount := s.frameCount + 1 } := by
  simp [FPSTracker.onFrameTick, h, helapsed]

/-- A tick that closes the window: the sample
`round(frameCount / elapsed)` is recorded on the incremented count and a
new window opens at `t` with a zero frame count. -/
theorem onFrameTick_closes (s : FPSTracker) (t : ℚ) (h : s.hasFirstTick = true)
    (helapsed : 1 ≤ t - s.windowStart) :
    s.onFrameTick t =
      { (FPSTracker.recordSample
            (croundQ (((s.frameCount + 1 : ℤ) : ℚ) / (t - s.windowStart)))
            { s with frameCount := s.frameCount + 1 }) with
        windowStart := t, frameCount := 0 } := by
  simp [FPSTracker.onFrameTick, h, helapsed]

/-! ### Ring-buffer representation invariant -/

/-- The ring-buffer fields of `s` are exactly the result of pushing the
whole chronological sample history `H` through `recordSample`'s buffer
discipline: before wrap the buffer is `H` padded with zero placeholders,
after wrap reading `maxSamples` slots from `writeIndex` yields the last
`maxSamples` samples of `H` in order. -/
def ringBufInv (s : FPSTracker) (H : List ℤ) : Prop :=
  s.samples.length = s.maxSamples ∧
  s.sampleCount = min H.length s.maxSamples ∧
  s.writeIndex = H.length % s.maxSamples ∧
  (if H.length < s.maxSamples then
    s.samples = H ++ List.replicate (s.maxSamples - H.length) 0
  else
    (List.range s.maxSamples).map
      (fun i => s.samples.getD ((s.writeIndex + i) % s.maxSamples) 0) = lastN s.maxSamples H)

theorem lastN_length (n : ℕ) (l : List ℤ) : (lastN n l).length = min l.length n := by
  simp [lastN]; omega

theorem lastN_of_length_le (n : ℕ) (l : List ℤ) (h : l.length ≤ n) : lastN n l = l := by
  simp [lastN, Nat.sub_eq_zero_of_le h]

theorem rangeMap_getD_take (n : ℕ) (l : List ℤ) (h : n ≤ l.length) :
    (List.range n).map (fun i => l.getD i 0) = l.take n := by
  induction n with
  | zero => simp
  | succ k ih =>
    rw [List.range_succ, List.map_append, ih (by omega), List.take_succ]
    simp [List.getD_eq_getElem?_getD, List.getElem?_eq_getElem (show k < l.length by omega)]

theorem rangeMap_getD_self (l : List ℤ) :
    (List.range l.length).map (fun i => l.getD i 0) = l := by
  rw [rangeMap_getD_take l.length l le_rfl, List.take_length]

theorem mod_shift_ne (w i n : ℕ) (hw : w < n) (hi : i < n - 1) :
    (w + 1 + i) % n ≠ w := by
  rcases Nat.lt_or_ge (w + 1 + i) n with hc | hc
  · rw [Nat.mod_eq_of_lt hc]; omega
  · rw [Nat.mod_eq_sub_mod hc, Nat.mod_eq_of_lt (show w + 1 + i - n < n by omega)]
    omega

/-- Pushing one more sample through `recordSample` keeps the ring-buffer
fields in correspondence with the extended history. -/
theorem ringBufInv_recordSample (s : FPSTracker) (H : List ℤ) (fps : ℤ)
    (h : ringBufInv s H) : ringBufInv (s.recordSample fps) (H ++ [fps]) := by
  obtain ⟨hlen, hcnt, hidx, hbuf⟩ := h
  refine ⟨?_, ?_, ?_, ?_⟩
  · simpa [FPSTracker.recordSample] using hlen
  · simp only [FPSTracker.recordSample, List.length_append, List.length_cons,
      List.length_nil]
    rw [hcnt]
    split <;> omega
  · simp only [FPSTracker.recordSample, List.length_append, List.length_cons,
      List.length_nil]
    rw [hidx, Nat.mod_add_mod]
  · simp only [FPSTracker.recordSample, List.length_append, List.length_cons,
      List.length_nil, Nat.zero_add]
    by_cases hA : H.length + 1 < s.maxSamples
    · rw [if_pos hA]
      have hBold : H.length < s.maxSamples := by omega
      rw [if_pos hBold] at hbuf
      have hw : s.writeIndex = H.length := by rw [hidx, Nat.mod_eq_of_lt hBold]
      obtain ⟨k, hk⟩ : ∃ k, s.maxSamples - H.length = k + 1 := ⟨s.maxSamples - H.length - 1, by omega⟩
      rw [hbuf, hw, List.set_append]
      have hk' : s.maxSamples - (H.length + 1) = k := by omega
      simp [hk, hk', List.replicate_succ, List.append_assoc]
    · rw [if_neg hA]
      by_cases hB : H.length < s.maxSamples
      · -- the buffer becomes exactly full with this sample
        have hmax : s.maxSamples = H.length + 1 := by omega
        rw [if_pos hB] at hbuf
        have hw : s.writeIndex = H.length := by rw [hidx, Nat.mod_eq_of_lt hB]
        have hone : s.maxSamples - H.length = 1 := by omega
        have hsam : s.samples.set s.writeIndex fps = H ++ [fps] := by
          rw [hbuf, hw, hone, List.set_append]
          simp
        have hwidx : (s.writeIndex + 1) % s.maxSamples = 0 := by
          rw [hw, ← hmax, Nat.mod_self]
        rw [hsam, hwidx]
        have hcongr : ∀ i ∈ List.range s.maxSamples,
            (H ++ [fps]).getD ((0 + i) % s.maxSamples) 0 = (H ++ [fps]).getD i 0 := by
          intro i hi
          rw [Nat.zero_add, Nat.mod_eq_of_lt (List.mem_range.mp hi)]
        rw [List.map_congr_left hcongr]
        have hlenfull : (H ++ [fps]).length = s.maxSamples := by
          simp [hmax]
        rw [← hlenfull, rangeMap_getD_self]
        exact (lastN_of_length_le _ _ le_rfl).symm
      · -- the buffer was already full: FIFO rotation
        have hge : s.maxSamples ≤ H.length := by omega
        rw [if_neg hB] at hbuf
        rcases Nat.eq_zero_or_pos s.maxSamples with h0 | hpos
        · simp [h0, lastN]
        · have hw : s.writeIndex < s.maxSamples := by
            rw [hidx]; exact Nat.mod_lt _ hpos
          obtain ⟨K, hK⟩ : ∃ K, s.maxSamples = K + 1 := ⟨s.maxSamples - 1, by omega⟩
          have hRHS : lastN s.maxSamples (H ++ [fps]) = (lastN s.maxSamples H).drop 1 ++ [fps] := by
            simp only [lastN, List.length_append, List.length_cons, List.length_nil,
              Nat.zero_add]
            rw [List.drop_append_eq_append_drop,
              show H.length + 1 - s.maxSamples - H.length = 0 by omega,
              List.drop_drop,
              show H.length - s.maxSamples + 1 = H.length + 1 - s.maxSamples by omega]
            rfl
          have hset : ∀ i ∈ List.range K,
              (s.samples.set s.writeIndex fps).getD
                  (((s.writeIndex + 1) % s.maxSamples + i) % s.maxSamples) 0
                = s.samples.getD ((s.writeIndex + (i + 1)) % s.maxSamples) 0 := by
            intro i hi
            have hi' : i < K := List.mem_range.mp hi
            have hne : (s.writeIndex + 1 + i) % s.maxSamples ≠ s.writeIndex :=
              mod_shift_ne _ _ _ hw (by omega)
            rw [Nat.mod_add_mod, List.getD_eq_getElem?_getD, List.getElem?_set_ne hne.symm,
              ← List.getD_eq_getElem?_getD,
              show s.writeIndex + 1 + i = s.writeIndex + (i + 1) by omega]
          have hlast : (s.samples.set s.writeIndex fps).getD
              (((s.writeIndex + 1) % s.maxSamples + K) % s.maxSamples) 0 = fps := by
            have hidx2 : ((s.writeIndex + 1) % s.maxSamples + K) % s.maxSamples
                = s.writeIndex := by
              rw [Nat.mod_add_mod,
                show s.writeIndex + 1 + K = s.writeIndex + s.maxSamples by omega,
                Nat.add_mod_right, Nat.mod_eq_of_lt hw]
            rw [hidx2, List.getD_eq_getElem?_getD,
              List.getElem?_set_self (by rw [hlen]; exact hw)]
            rfl
          calc (List.range s.maxSamples).map
                (fun i => (s.samples.set s.writeIndex fps).getD
                  (((s.writeIndex + 1) % s.maxSamples + i) % s.maxSamples) 0)
              = (List.range K).map
                  (fun i => s.samples.getD ((s.writeIndex + (i + 1)) % s.maxSamples) 0)
                  ++ [fps] := by
                rw [show List.range s.maxSamples = List.range K ++ [K] by
                    rw [hK, List.range_succ],
                  List.map_append]
                congr 1
                · exact List.map_congr_left hset
                · simp only [List.map_cons, List.map_nil]
                  rw [hlast]
            _ = ((List.range s.maxSamples).map
                  (fun i => s.samples.getD ((s.writeIndex + i) % s.maxSamples) 0)).drop 1
                  ++ [fps] := by
                congr 1
                rw [show List.range s.maxSamples = 0 :: (List.range K).map Nat.succ by
                    rw [hK, List.range_succ_eq_map]]
                simp only [List.map_cons, List.map_map, List.drop_one, List.tail_cons]
                exact (List.map_congr_left (fun i _ => rfl)).symm
            _ = (lastN s.maxSamples H).drop 1 ++ [fps] := by rw [hbuf]
            _ = lastN s.maxSamples (H ++ [fps]) := hRHS.symm

/-- A freshly constructed tracker corresponds to the empty history. -/
theorem ringBufInv_init (C : ℕ) : ringBufInv (FPSTracker.init C) [] := by
  refine ⟨by simp [FPSTracker.init], by simp [FPSTracker.init],
    by simp [FPSTracker.init], ?_⟩
  simp only [FPSTracker.init, List.length_nil]
  split
  · simp
  · next hC =>
    have : C = 0 := by omega
    subst this
    simp [lastN]

/-- Under the representation invariant, `getSamples` returns exactly the
last `maxSamples` recorded samples, oldest first. -/
theorem getSamples_eq_lastN (s : FPSTracker) (H : List ℤ) (h : ringBufInv s H) :
    s.getSamples = lastN s.maxSamples H := by
  obtain ⟨hlen, hcnt, hidx, hbuf⟩ := h
  by_cases hB : H.length < s.maxSamples
  · rw [if_pos hB] at hbuf
    have hcnt' : s.sampleCount = H.length := by omega
    unfold FPSTracker.getSamples
    rw [if_pos (by omega : s.sampleCount < s.maxSamples)]
    calc (List.range s.sampleCount).map (fun i => s.samples.getD i 0)
        = s.samples.take H.length := by
          rw [hcnt']; exact rangeMap_getD_take _ _ (by rw [hlen]; omega)
      _ = H := by rw [hbuf]; exact List.take_left H _
      _ = lastN s.maxSamples H := (lastN_of_length_le _ _ (by omega)).symm
  · rw [if_neg hB] at hbuf
    unfold FPSTracker.getSamples
    rw [if_neg (by omega)]
    exact hbuf

/-- `onFrameTick` never changes the configured capacity. -/
theorem onFrameTick_maxSamples (s : FPSTracker) (t : ℚ) :
    (s.onFrameTick t).maxSamples = s.maxSamples := by
  by_cases h1 : s.hasFirstTick = false
  · rw [onFrameTick_first s t h1]
  · have h1' : s.hasFirstTick = true := by simpa using h1
    by_cases h2 : 1 ≤ t - s.windowStart
    · rw [onFrameTick_closes s t h1' h2]; simp [FPSTracker.recordSample]
    · rw [onFrameTick_inside s t h1' h2]

/-- `onFrameTick` keeps the ring buffer in correspondence with the history
extended by whatever sample the tick emitted. -/
theorem ringBufInv_onFrameTick (s : FPSTracker) (H : List ℤ) (t : ℚ)
    (h : ringBufInv s H) :
    ringBufInv (s.onFrameTick t) (H ++ (FPSTracker.emittedFps t s).toList) := by
  by_cases h1 : s.hasFirstTick = false
  · rw [onFrameTick_first s t h1]
    simp only [FPSTracker.emittedFps, h1, if_pos, Option.toList_none, List.append_nil]
    exact h
  · have h1' : s.hasFirstTick = true := by simpa using h1
    by_cases h2 : 1 ≤ t - s.windowStart
    · rw [onFrameTick_closes s t h1' h2]
      simp only [FPSTracker.emittedFps, h1', h2, if_pos, Bool.true_eq_false,
        if_false, if_true, Option.toList_some]
      have h' : ringBufInv { s with frameCount := s.frameCount + 1 } H := h
      exact ringBufInv_recordSample _ H _ h'
    · rw [onFrameTick_inside s t h1' h2]
      simp only [FPSTracker.emittedFps, h1', h2, Bool.true_eq_false, if_false,
        Option.toList_none, List.append_nil]
      exact h

/-- `runTicks` never changes the configured capacity. -/
theorem runTicks_maxSamples (ts : List ℚ) (s : FPSTracker) :
    (s.runTicks ts).maxSamples = s.maxSamples := by
  induction ts generalizing s with
  | nil => rfl
  | cons t rest ih =>
    calc (s.runTicks (t :: rest)).maxSamples
        = ((s.onFrameTick t).runTicks rest).maxSamples := rfl
      _ = (s.onFrameTick t).maxSamples := ih _
      _ = s.maxSamples := onFrameTick_maxSamples s t

/-- Delivering a whole tick sequence keeps the ring buffer in
correspondence with the full emitted history. -/
theorem ringBufInv_runTicks (ts : List ℚ) (s : FPSTracker) (H : List ℤ)
    (h : ringBufInv s H) :
    ringBufInv (s.runTicks ts) (H ++ s.histFrom ts) := by
  induction ts generalizing s H with
  | nil => simpa [FPSTracker.runTicks, FPSTracker.histFrom] using h
  | cons t rest ih =>
    have h2 := ih (s.onFrameTick t) _ (ringBufInv_onFrameTick s H t h)
    simpa [FPSTracker.runTicks, FPSTracker.histFrom, List.append_assoc] using h2

/-! ### Claim theorems -/

/-- Claim C1: the first `onFrameTick` after construction or reset opens a
window at the given timestamp, counts one frame, and emits no sample; each
later tick increments the open window's frame count, and once
`timestamp - windowStart ≥ 1` the window closes, recording
`round(frameCount / elapsed)` over the actual elapsed time (59 frames over
1.0 give 59; 61 frames over 1.02 give 60), after which a new window opens
at that timestamp with a zero frame count. -/
theorem fpsTracker_window_lifecycle (s : FPSTracker) (t : ℚ) :
    (s.hasFirstTick = false →
      s.onFrameTick t = { s with windowStart := t, frameCount := 1, hasFirstTick := true }) ∧
    (s.hasFirstTick = true → ¬ (1 ≤ t - s.windowStart) →
      s.onFrameTick t = { s with frameCount := s.frameCount + 1 }) ∧
    (s.hasFirstTick = true → 1 ≤ t - s.windowStart →
      s.onFrameTick t =
        { (FPSTracker.recordSample
              (croundQ (((s.frameCount + 1 : ℤ) : ℚ) / (t - s.windowStart)))
              { s with frameCount := s.frameCount + 1 }) with
          windowStart := t, frameCount := 0 }) ∧
    croundQ ((59 : ℚ) / 1) = 59 ∧ croundQ ((61 : ℚ) / (51 / 50)) = 60 :=
  ⟨onFrameTick_first s t, onFrameTick_inside s t, onFrameTick_closes s t,
    by norm_num [croundQ, round_eq], by norm_num [croundQ, round_eq]⟩

/-- A concrete tracker state with one open window starting at 5, used by
the C1 witness. -/
def openWindowAt5 : FPSTracker :=
  { FPSTracker.init 3 with windowStart := 5, frameCount := 1, hasFirstTick := true }

/-- Witness for C1 at concrete states: a fresh tracker ticked at `t = 5`,
then the resulting open window ticked inside the window (`t = 11/2`) and
at a window close (`t = 13/2`). -/
theorem fpsTracker_window_lifecycle_witness :
    ((FPSTracker.init 3).hasFirstTick = false ∧
      (FPSTracker.init 3).onFrameTick 5
        = { FPSTracker.init 3 with windowStart := 5, frameCount := 1, hasFirstTick := true }) ∧
    (openWindowAt5.hasFirstTick = true ∧ ¬ (1 ≤ (11/2 : ℚ) - openWindowAt5.windowStart) ∧
      openWindowAt5.onFrameTick (11/2) = { openWindowAt5 with frameCount := openWindowAt5.frameCount + 1 }) ∧
    ((1 ≤ (13/2 : ℚ) - openWindowAt5.windowStart) ∧
      openWindowAt5.onFrameTick (13/2)
        = { (FPSTracker.recordSample
              (croundQ (((openWindowAt5.frameCount + 1 : ℤ) : ℚ) / ((13/2 : ℚ) - openWindowAt5.windowStart)))
              { openWindowAt5 with frameCount := openWindowAt5.frameCount + 1 }) with
            windowStart := 13/2, frameCount := 0 }) := by
  have hin : ¬ (1 ≤ (11/2 : ℚ) - openWindowAt5.windowStart) := by
    show ¬ (1 ≤ (11/2 : ℚ) - 5); norm_num
  have hcl : (1 ≤ (13/2 : ℚ) - openWindowAt5.windowStart) := by
    show 1 ≤ (13/2 : ℚ) - 5; norm_num
  exact ⟨⟨rfl, (fpsTracker_window_lifecycle (FPSTracker.init 3) 5).1 rfl⟩,
    ⟨rfl, hin, (fpsTracker_window_lifecycle openWindowAt5 (11/2)).2.1 rfl hin⟩,
    ⟨hcl, (fpsTracker_window_lifecycle openWindowAt5 (13/2)).2.2.1 rfl hcl⟩⟩

/-- Claim C3: every window close adds `max(0, targetFps - rate)` to the
cumulative dropped-frame counter and increments the stutter counter
exactly when that amount is at least 4; over closed-window rates
`[60, 55, 50, 61]` at target 60 this accumulates 15 dropped frames and 2
stutters. -/
theorem fpsTracker_drop_stutter (s : FPSTracker) (fps : ℤ) :
    ((s.recordSample fps).getDroppedFrames
        = s.getDroppedFrames + max 0 (s.targetFps - fps)) ∧
    ((s.recordSample fps).getStutterCount
        = if 4 ≤ max 0 (s.targetFps - fps)
          then s.getStutterCount + 1 else s.getStutterCount) ∧
    (([60, 55, 50, 61].foldl (fun a f => a.recordSample f)
        (FPSTracker.init 5)).getDroppedFrames = 15 ∧
      ([60, 55, 50, 61].foldl (fun a f => a.recordSample f)
        (FPSTracker.init 5)).getStutterCount = 2) :=
  ⟨rfl, rfl, by decide, by decide⟩

/-- Claim C5: a fresh tracker reports `getMinFps() = 0` (not the
`INT32_MAX` sentinel) and `getMaxFps() = 0`, and `reset()` after any prior
activity returns both getters to 0. -/
theorem fpsTracker_min_max_initial (C : ℕ) (s : FPSTracker) :
    (FPSTracker.init C).getMinFps = 0 ∧ (FPSTracker.init C).getMaxFps = 0 ∧
    s.reset.getMinFps = 0 ∧ s.reset.getMaxFps = 0 :=
  ⟨rfl, rfl, rfl, rfl⟩

/-- Claim C7: the division `frameCount / elapsed` is evaluated only under
the window-close guard `elapsed ≥ 1.0`, so its divisor is strictly
positive whenever a sample is produced. -/
theorem fpsTracker_divisor_positive (s : FPSTracker) (t : ℚ) :
    (FPSTracker.emittedFps t s ≠ none → 0 < t - s.windowStart) ∧
    (s.closesWindow t = true → 0 < t - s.windowStart) := by
  constructor
  · intro h
    unfold FPSTracker.emittedFps at h
    by_cases h1 : s.hasFirstTick = false
    · simp [h1] at h
    · by_cases h2 : 1 ≤ t - s.windowStart
      · linarith
      · simp [h1, h2] at h
  · intro h
    have h' : s.hasFirstTick = true ∧ 1 ≤ t - s.windowStart := by
      simpa [FPSTracker.closesWindow] using h
    linarith [h'.2]

/-- Witness for C7: a tracker with an open window starting at 5 and a tick
at 7 closes the window; the divisor `7 - 5` is positive. -/
theorem fpsTracker_divisor_positive_witness :
    FPSTracker.emittedFps 7 openWindowAt5 ≠ none ∧
    openWindowAt5.closesWindow 7 = true ∧
    0 < (7 : ℚ) - openWindowAt5.windowStart := by
  have h1 : FPSTracker.emittedFps 7 openWindowAt5 ≠ none := by
    norm_num [FPSTracker.emittedFps, openWindowAt5, FPSTracker.init]
    exact fun hc => Option.noConfusion hc
  exact ⟨h1,
    by norm_num [FPSTracker.closesWindow, openWindowAt5, FPSTracker.init],
    (fpsTracker_divisor_positive openWindowAt5 7).1 h1⟩

/-- Claim C2: for every non-decreasing tick sequence delivered to a
tracker of capacity `C`, `getSamples` is exactly the last `C` entries of
the full chronological emission history (oldest first, FIFO eviction) and
never exceeds `C` entries. -/
theorem fpsTracker_history_fifo (C : ℕ) (ts : List ℚ)
    (hmono : List.Chain' (· ≤ ·) ts) :
    ((FPSTracker.init C).runTicks ts).getSamples
        = lastN C ((FPSTracker.init C).histFrom ts) ∧
    ((FPSTracker.init C).runTicks ts).getSamples.length ≤ C := by
  have h := ringBufInv_runTicks ts (FPSTracker.init C) [] (ringBufInv_init C)
  rw [List.nil_append] at h
  have hmax : ((FPSTracker.init C).runTicks ts).maxSamples = C :=
    runTicks_maxSamples ts (FPSTracker.init C)
  have hs := getSamples_eq_lastN _ _ h
  rw [hmax] at hs
  refine ⟨hs, ?_⟩
  rw [hs, lastN_length]
  omega

/-- Witness for C2: capacity 2, six non-decreasing ticks closing four
windows. -/
theorem fpsTracker_history_fifo_witness :
    List.Chain' (· ≤ ·) [(1 : ℚ), 3/2, 2, 3, 4, 5] ∧
    (((FPSTracker.init 2).runTicks [(1 : ℚ), 3/2, 2, 3, 4, 5]).getSamples
        = lastN 2 ((FPSTracker.init 2).histFrom [(1 : ℚ), 3/2, 2, 3, 4, 5]) ∧
      ((FPSTracker.init 2).runTicks [(1 : ℚ), 3/2, 2, 3, 4, 5]).getSamples.length ≤ 2) := by
  have hm : List.Chain' (· ≤ ·) [(1 : ℚ), 3/2, 2, 3, 4, 5] := by
    norm_num [List.chain'_cons, List.chain'_singleton]
  exact ⟨hm, fpsTracker_history_fifo 2 _ hm⟩

/-- `reset()` restores the empty-history correspondence: the buffer is
zero-filled in place (`std::fill` keeps its length), the indices and the
sample count go back to 0. -/
theorem ringBufInv_reset (s : FPSTracker) (hlen : s.samples.length = s.maxSamples) :
    ringBufInv s.reset [] := by
  refine ⟨?_, ?_, ?_, ?_⟩
  · simpa [FPSTracker.reset] using hlen
  · simp [FPSTracker.reset]
  · simp [FPSTracker.reset]
  · simp only [FPSTracker.reset, List.length_nil]
    split
    · simp only [List.nil_append, Nat.sub_zero]
      rw [List.map_const', hlen]
    · next hC =>
      have h0 : s.maxSamples = 0 := by omega
      rw [h0]
      simp [lastN]

/-- Claim C10: with positive capacity `C`, after exactly `n` window closes
since construction — or since a `reset()` that followed arbitrary prior
activity — `getSamples` holds exactly `min n C` entries (`n` is the length
of the emitted history of the current epoch): the zero-initialized
placeholder slots of the backing buffer never appear in the returned
history, which is exactly the last `min n C` real samples. -/
theorem fpsTracker_samples_count_min (C : ℕ) (ts0 ts : List ℚ) (hC : 0 < C) :
    (((FPSTracker.init C).runTicks ts).getSamples.length
        = min ((FPSTracker.init C).histFrom ts).length C ∧
      ((FPSTracker.init C).runTicks ts).getSamples
        = lastN C ((FPSTracker.init C).histFrom ts)) ∧
    ((((FPSTracker.init C).runTicks ts0).reset.runTicks ts).getSamples.length
        = min (((FPSTracker.init C).runTicks ts0).reset.histFrom ts).length C ∧
      (((FPSTracker.init C).runTicks ts0).reset.runTicks ts).getSamples
        = lastN C (((FPSTracker.init C).runTicks ts0).reset.histFrom ts)) := by
  constructor
  · have h := ringBufInv_runTicks ts (FPSTracker.init C) [] (ringBufInv_init C)
    rw [List.nil_append] at h
    have hmax : ((FPSTracker.init C).runTicks ts).maxSamples = C :=
      runTicks_maxSamples ts (FPSTracker.init C)
    have hs := getSamples_eq_lastN _ _ h
    rw [hmax] at hs
    exact ⟨by rw [hs, lastN_length], hs⟩
  · have h0 := ringBufInv_runTicks ts0 (FPSTracker.init C) [] (ringBufInv_init C)
    rw [List.nil_append] at h0
    have hmax0 : ((FPSTracker.init C).runTicks ts0).maxSamples = C :=
      runTicks_maxSamples ts0 (FPSTracker.init C)
    have hr : ringBufInv ((FPSTracker.init C).runTicks ts0).reset [] :=
      ringBufInv_reset _ h0.1
    have h := ringBufInv_runTicks ts ((FPSTracker.init C).runTicks ts0).reset [] hr
    rw [List.nil_append] at h
    have hmax : (((FPSTracker.init C).runTicks ts0).reset.runTicks ts).maxSamples = C := by
      rw [runTicks_maxSamples ts ((FPSTracker.init C).runTicks ts0).reset]
      exact hmax0
    have hs := getSamples_eq_lastN _ _ h
    rw [hmax] at hs
    exact ⟨by rw [hs, lastN_length], hs⟩

/-- Witness for C10: capacity 1; three ticks closing two windows from
construction, and the same ticks replayed after a reset that followed a
two-tick prior run. -/
theorem fpsTracker_samples_count_min_witness :
    0 < 1 ∧
    ((((FPSTracker.init 1).runTicks [(0 : ℚ), 1, 2]).getSamples.length
        = min ((FPSTracker.init 1).histFrom [(0 : ℚ), 1, 2]).length 1 ∧
      ((FPSTracker.init 1).runTicks [(0 : ℚ), 1, 2]).getSamples
        = lastN 1 ((FPSTracker.init 1).histFrom [(0 : ℚ), 1, 2])) ∧
    ((((FPSTracker.init 1).runTicks [(0 : ℚ), 1]).reset.runTicks [(0 : ℚ), 1, 2]).getSamples.length
        = min (((FPSTracker.init 1).runTicks [(0 : ℚ), 1]).reset.histFrom [(0 : ℚ), 1, 2]).length 1 ∧
      (((FPSTracker.init 1).runTicks [(0 : ℚ), 1]).reset.runTicks [(0 : ℚ), 1, 2]).getSamples
        = lastN 1 (((FPSTracker.init 1).runTicks [(0 : ℚ), 1]).reset.histFrom [(0 : ℚ), 1, 2]))) :=
  ⟨Nat.one_pos,
    fpsTracker_samples_count_min 1 [(0 : ℚ), 1] [(0 : ℚ), 1, 2] Nat.one_pos⟩

/-- Claim C9: monitor `reset()` resets both trackers and zeroes every
auxiliary counter (heap, long-task, slow-event, render) while leaving the
running/stopped state, the timer flag, the subscriber registry, the id
counter, the interval, and the target untouched. -/
theorem monitor_reset_effect (m : Monitor) :
    m.reset.uiFpsTracker = m.uiFpsTracker.reset ∧
    m.reset.jsFpsTracker = m.jsFpsTracker.reset ∧
    m.reset.jsHeapUsed = 0 ∧ m.reset.jsHeapTotal = 0 ∧
    m.reset.longTaskCount = 0 ∧ m.reset.longTaskTotalMs = 0 ∧
    m.reset.slowEventCount = 0 ∧ m.reset.maxEventDurationMs = 0 ∧
    m.reset.renderCount = 0 ∧ m.reset.lastRenderDurationMs = 0 ∧
    m.reset.isRunning = m.isRunning ∧ m.reset.timerRunning = m.timerRunning ∧
    m.reset.subscribers = m.subscribers ∧
    m.reset.nextSubscriberId = m.nextSubscriberId ∧
    m.reset.updateIntervalMs = m.updateIntervalMs ∧
    m.reset.targetFps = m.targetFps :=
  ⟨rfl, rfl, rfl, rfl, rfl, rfl, rfl, rfl, rfl, rfl, rfl, rfl, rfl, rfl, rfl, rfl⟩

/-- Claim C4: `configure` stores the notify interval unconditionally,
replaces both trackers with fresh ones exactly when `maxHistorySamples` is
strictly positive, propagates the target rate to both trackers exactly
when `targetFps` is strictly positive, and ignores each non-positive field
individually while the other fields of the same call still apply. -/
theorem monitor_configure_fields (m : Monitor) (cfg : PerfConfig) :
    ((m.configure cfg).updateIntervalMs = truncToInt cfg.updateIntervalMs) ∧
    (0 < cfg.maxHistorySamples → ¬ 0 < cfg.targetFps →
      (m.configure cfg).uiFpsTracker
          = FPSTracker.init (truncToInt cfg.maxHistorySamples).toNat ∧
      (m.configure cfg).jsFpsTracker
          = FPSTracker.init (truncToInt cfg.maxHistorySamples).toNat ∧
      (m.configure cfg).targetFps = m.targetFps) ∧
    (0 < cfg.maxHistorySamples → 0 < cfg.targetFps →
      (m.configure cfg).uiFpsTracker
          = (FPSTracker.init (truncToInt cfg.maxHistorySamples).toNat).setTargetFps
              (truncToInt cfg.targetFps) ∧
      (m.configure cfg).jsFpsTracker
          = (FPSTracker.init (truncToInt cfg.maxHistorySamples).toNat).setTargetFps
              (truncToInt cfg.targetFps) ∧
      (m.configure cfg).targetFps = truncToInt cfg.targetFps) ∧
    (¬ 0 < cfg.maxHistorySamples → ¬ 0 < cfg.targetFps →
      (m.configure cfg).uiFpsTracker = m.uiFpsTracker ∧
      (m.configure cfg).jsFpsTracker = m.jsFpsTracker ∧
      (m.configure cfg).targetFps = m.targetFps) ∧
    (¬ 0 < cfg.maxHistorySamples → 0 < cfg.targetFps →
      (m.configure cfg).uiFpsTracker
          = m.uiFpsTracker.setTargetFps (truncToInt cfg.targetFps) ∧
      (m.configure cfg).jsFpsTracker
          = m.jsFpsTracker.setTargetFps (truncToInt cfg.targetFps) ∧
      (m.configure cfg).targetFps = truncToInt cfg.targetFps) := by
  refine ⟨?_, ?_, ?_, ?_, ?_⟩
  · by_cases h1 : 0 < cfg.maxHistorySamples <;> by_cases h2 : 0 < cfg.targetFps <;>
      simp [Monitor.configure, h1, h2]
  · intro h1 h2; refine ⟨?_, ?_, ?_⟩ <;> simp [Monitor.configure, h1, h2]
  · intro h1 h2; refine ⟨?_, ?_, ?_⟩ <;> simp [Monitor.configure, h1, h2]
  · intro h1 h2; refine ⟨?_, ?_, ?_⟩ <;> simp [Monitor.configure, h1, h2]
  · intro h1 h2; refine ⟨?_, ?_, ?_⟩ <;> simp [Monitor.configure, h1, h2]

/-- Witness for C4 at a concrete call: `configure({250, 10, 30})` (all
fields positive) and `configure({250, 0, 0})` (both optional fields
ignored) on the freshly constructed monitor. -/
theorem monitor_configure_fields_witness :
    ((Monitor.init.configure ⟨250, 10, 30⟩).updateIntervalMs = truncToInt 250) ∧
    ((0 : ℚ) < 10 ∧ ¬ (0 : ℚ) < 0 ∧
      (Monitor.init.configure ⟨250, 10, 30⟩).uiFpsTracker
          = (FPSTracker.init (truncToInt 10).toNat).setTargetFps (truncToInt 30) ∧
      (Monitor.init.configure ⟨250, 10, 30⟩).targetFps = truncToInt 30) ∧
    ((Monitor.init.configure ⟨250, 0, 0⟩).uiFpsTracker = Monitor.init.uiFpsTracker ∧
      (Monitor.init.configure ⟨250, 0, 0⟩).jsFpsTracker = Monitor.init.jsFpsTracker ∧
      (Monitor.init.configure ⟨250, 0, 0⟩).targetFps = Monitor.init.targetFps) := by
  have hp : (0 : ℚ) < 10 := by norm_num
  have hq : (0 : ℚ) < 30 := by norm_num
  have hz : ¬ (0 : ℚ) < 0 := by norm_num
  have ha := (monitor_configure_fields Monitor.init ⟨250, 10, 30⟩).2.2.1 hp hq
  have hb := (monitor_configure_fields Monitor.init ⟨250, 0, 0⟩).2.2.2.1 hz hz
  exact ⟨(monitor_configure_fields Monitor.init ⟨250, 10, 30⟩).1,
    ⟨hp, hz, ha.1, ha.2.2⟩, hb⟩

/-- The returned-id list of any subscribe/unsubscribe call sequence, and
the final counter, in terms of the starting counter. -/
theorem runSubOps_ids (ops : List SubOp) (m : Monitor) :
    (runSubOps ops m).2
        = (List.range (countSubs ops)).map (fun k : ℕ => m.nextSubscriberId + (k : ℤ)) ∧
    (runSubOps ops m).1.nextSubscriberId
        = m.nextSubscriberId + (countSubs ops : ℤ) := by
  induction ops generalizing m with
  | nil => simp [runSubOps, countSubs]
  | cons op rest ih =>
    cases op with
    | sub =>
      obtain ⟨ih1, ih2⟩ := ih
        { m with nextSubscriberId := m.nextSubscriberId + 1,
                 subscribers := m.nextSubscriberId :: m.subscribers }
      constructor
      · simp only [runSubOps, Monitor.subscribe, countSubs, ih1,
          List.range_succ_eq_map, List.map_cons, List.map_map]
        congr 1
        · simp
        · apply List.map_congr_left
          intro k _
          simp only [Function.comp_apply, Nat.succ_eq_add_one]
          push_cast
          ring
      · simp only [runSubOps, Monitor.subscribe, countSubs, ih2]
        push_cast
        ring
    | unsub i =>
      have := ih { m with subscribers := m.subscribers.filter (fun j => j ≠ i) }
      simpa [runSubOps, Monitor.unsubscribe, countSubs] using this

/-- Claim C8: across any sequence of subscribe/unsubscribe calls, the
returned ids are exactly `1, 2, 3, …` in order — each id is strictly
greater than every previously returned id, the counter starts at 1, and no
id is ever handed out again after its subscriber is removed. -/
theorem monitor_subscriber_ids (ops : List SubOp) :
    (runSubOps ops Monitor.init).2
        = (List.range (countSubs ops)).map (fun k : ℕ => (1 : ℤ) + (k : ℤ)) ∧
    (runSubOps ops Monitor.init).2.Pairwise (· < ·) := by
  have h := (runSubOps_ids ops Monitor.init).1
  have h' : (runSubOps ops Monitor.init).2
      = (List.range (countSubs ops)).map (fun k : ℕ => (1 : ℤ) + (k : ℤ)) := by
    simpa [Monitor.init] using h
  refine ⟨h', ?_⟩
  rw [h']
  refine List.Pairwise.map _ ?_ (List.pairwise_lt_range (countSubs ops))
  intro a b hab
  have : (a : ℤ) < (b : ℤ) := by exact_mod_cast hab
  omega

/-- Extending a trace by one event preserves the no-notify-after-stop
property, provided a newly emitted `notify` implies no `stopReturned` is
in the trace yet. -/
theorem noNotifyAfterStop_snoc (evs : List Ev) (e : Ev)
    (h : NoNotifyAfterStop evs)
    (hnew : e = Ev.notify → Ev.stopReturned ∉ evs) :
    NoNotifyAfterStop (evs ++ [e]) := by
  intro pre post hsplit
  rcases List.eq_nil_or_concat post with hpost | ⟨post', x, hx⟩
  · subst hpost
    have hlen : evs.length = pre.length := by
      have := congrArg List.length hsplit
      simpa using this
    obtain ⟨h1, h2⟩ := List.append_inj hsplit hlen
    have he : e = Ev.notify := by injection h2
    intro hmem
    exact (hnew he) (h1 ▸ hmem)
  · subst hx
    have hsplit' : evs ++ [e] = (pre ++ Ev.notify :: post') ++ [x] := by
      simpa [List.concat_eq_append, List.append_assoc] using hsplit
    have hlen : evs.length = (pre ++ Ev.notify :: post').length := by
      have := congrArg List.length hsplit'
      simp at this ⊢
      omega
    obtain ⟨h1, _⟩ := List.append_inj hsplit' hlen
    exact h pre post' h1

/-- Invariant along any execution starting from a running system whose
caller is about to execute `stop()`: once `stopReturned` has been
emitted, the caller is done, the timer thread has exited, and the flag is
down — and no notification ever follows a `stopReturned`. -/
def StopInv (s : SysState) (evs : List Ev) : Prop :=
  (s.caller = CallerPC.beforeStop → s.isRunning = true) ∧
  (s.caller = CallerPC.joining → s.timerRunning = false) ∧
  (Ev.stopReturned ∈ evs →
    s.caller = CallerPC.done ∧ s.timer = TimerPC.exited ∧ s.timerRunning = false) ∧
  NoNotifyAfterStop evs

/-- The invariant holds along every interleaving from a coherent pre-stop
state. -/
theorem stopInv_steps (s0 : SysState) (evs : List Ev) (s' : SysState)
    (h0 : s0.caller = CallerPC.beforeStop) (h1 : s0.isRunning = true)
    (hsteps : StepsTo s0 evs s') : StopInv s' evs := by
  induction hsteps with
  | refl =>
    refine ⟨fun _ => h1, ?_, ?_, ?_⟩
    · intro hc; rw [h0] at hc; exact CallerPC.noConfusion hc
    · intro hmem; exact absurd hmem (List.not_mem_nil _)
    · intro pre post hsplit; exact absurd hsplit (by simp)
  | snoc t u evs1 es hst hstep ih =>
    obtain ⟨i1, i2, i3, i4⟩ := ih
    cases hstep with
    | timerWhileTrue hpc hflag =>
      rw [List.append_nil]
      refine ⟨i1, i2, ?_, i4⟩
      intro hmem
      rcases i3 hmem with ⟨_, c2, _⟩
      rw [hpc] at c2
      exact TimerPC.noConfusion c2
    | timerWhileFalse hpc hflag =>
      rw [List.append_nil]
      refine ⟨i1, i2, ?_, i4⟩
      intro hmem
      rcases i3 hmem with ⟨_, c2, _⟩
      rw [hpc] at c2
      exact TimerPC.noConfusion c2
    | timerSleepDone hpc =>
      rw [List.append_nil]
      refine ⟨i1, i2, ?_, i4⟩
      intro hmem
      rcases i3 hmem with ⟨_, c2, _⟩
      rw [hpc] at c2
      exact TimerPC.noConfusion c2
    | timerCheckTrue hpc hflag =>
      have hnostop : Ev.stopReturned ∉ evs1 := by
        intro hmem
        rcases i3 hmem with ⟨_, _, c3⟩
        rw [c3] at hflag
        exact Bool.noConfusion hflag
      refine ⟨i1, i2, ?_, noNotifyAfterStop_snoc evs1 Ev.notify i4 (fun _ => hnostop)⟩
      intro hmem
      rcases List.mem_append.mp hmem with hmem | hmem
      · exact absurd hmem hnostop
      · simp at hmem
    | timerCheckFalse hpc hflag =>
      rw [List.append_nil]
      refine ⟨i1, i2, ?_, i4⟩
      intro hmem
      rcases i3 hmem with ⟨_, c2, _⟩
      rw [hpc] at c2
      exact TimerPC.noConfusion c2
    | callerExchangeTrue hpc hrun =>
      rw [List.append_nil]
      refine ⟨?_, ?_, ?_, i4⟩
      · intro hc; exact CallerPC.noConfusion hc
      · intro hc; exact CallerPC.noConfusion hc
      · intro hmem
        rcases i3 hmem with ⟨c1, _, _⟩
        rw [hpc] at c1
        exact CallerPC.noConfusion c1
    | callerExchangeFalse hpc hrun =>
      have := i1 hpc
      rw [hrun] at this
      exact Bool.noConfusion this
    | callerClearFlag hpc =>
      rw [List.append_nil]
      refine ⟨?_, fun _ => rfl, ?_, i4⟩
      · intro hc; exact CallerPC.noConfusion hc
      · intro hmem
        rcases i3 hmem with ⟨c1, _, _⟩
        rw [hpc] at c1
        exact CallerPC.noConfusion c1
    | callerJoin hpc hexit =>
      refine ⟨?_, ?_, ?_,
        noNotifyAfterStop_snoc evs1 Ev.stopReturned i4 (fun he => Ev.noConfusion he)⟩
      · intro hc; exact CallerPC.noConfusion hc
      · intro hc; exact CallerPC.noConfusion hc
      · intro _
        exact ⟨rfl, hexit, i2 hpc⟩

/-- Claim C6: `stop()` is idempotent — a redundant call on a stopped
monitor is a no-op and a second call changes nothing — and, because the
join transition is enabled only once the timer thread has exited, no
subscriber notification can be emitted after `stop()` has returned, in
any interleaving of the caller with the timer thread. -/
theorem monitor_stop_idempotent_no_notify (m : Monitor) (s0 : SysState)
    (evs : List Ev) (s' : SysState)
    (h0 : s0.caller = CallerPC.beforeStop) (h1 : s0.isRunning = true)
    (hsteps : StepsTo s0 evs s') :
    (m.isRunning = false → m.stop = m) ∧
    m.stop.stop = m.stop ∧
    NoNotifyAfterStop evs := by
  refine ⟨?_, ?_, (stopInv_steps s0 evs s' h0 h1 hsteps).2.2.2⟩
  · intro h; simp [Monitor.stop, h]
  · by_cases h : m.isRunning = false <;> simp [Monitor.stop, h]

/-- The coherent running state used by the C6 witness: timer thread at the
loop head, flag up, `stop()` about to run. -/
def c6Start : SysState :=
  { isRunning := true, timerRunning := true,
    timer := TimerPC.atWhile, caller := CallerPC.beforeStop }

/-- Witness for C6: a full interleaving in which `stop()` exchanges the
running flag, clears the timer flag, the timer loop observes it and
exits, and the join completes; the trace is `[stopReturned]` and no
notification fires after it. -/
theorem monitor_stop_idempotent_no_notify_witness :
    c6Start.caller = CallerPC.beforeStop ∧ c6Start.isRunning = true ∧
    (Monitor.init.stop = Monitor.init) ∧
    Monitor.init.stop.stop = Monitor.init.stop ∧
    NoNotifyAfterStop [Ev.stopReturned] := by
  have hsteps : StepsTo c6Start [Ev.stopReturned]
      { isRunning := false, timerRunning := false,
        timer := TimerPC.exited, caller := CallerPC.done } :=
    StepsTo.snoc _ _ _ _ _
      (StepsTo.snoc _ _ _ _ _
        (StepsTo.snoc _ _ _ _ _
          (StepsTo.snoc _ _ _ _ _ (StepsTo.refl c6Start)
            (SysStep.callerExchangeTrue c6Start rfl rfl))
          (SysStep.callerClearFlag _ rfl))
        (SysStep.timerWhileFalse _ rfl rfl))
      (SysStep.callerJoin _ rfl rfl)
  have h := monitor_stop_idempotent_no_notify Monitor.init c6Start
    [Ev.stopReturned] _ rfl rfl hsteps
  exact ⟨rfl, rfl, h.1 rfl, h.2.1, h.2.2⟩

end NitroPerf
